import Mathlib

/-!
Verification development for the Ayatori journey-planning engine
(`ayatori/models/TransferConnection.py`, `ayatori/models/GTFSData.py`,
`ayatori/models/ConnectionScanAlgorithm.py`).

Times (`datetime`, `timedelta`) are modelled as rational numbers of seconds;
distances in kilometres as rationals; Python `int` fields as `Int`.
Python dictionaries are modelled as insertion-ordered association lists
(first binding wins on lookup, updates rewrite in place, new keys append),
which matches CPython dict semantics.  The haversine metric (float
trigonometry in the source) is abstracted as a rational-valued function
carried inside the `GTFSData` model; every theorem below holds for an
arbitrary such metric, and concrete counterexamples instantiate it with
explicit tables.
-/

/-- Python `int(x)` for a rational: truncation toward zero. -/
def pyInt (q : ℚ) : ℤ :=
  if q < 0 then -((-q).floor) else q.floor

/-- Ordered-dictionary lookup: first binding for the key, if any. -/
def alGet {κ α : Type} [DecidableEq κ] : List (κ × α) → κ → Option α
  | [], _ => none
  | (k, v) :: rest, key => if k = key then some v else alGet rest key

/-- Ordered-dictionary update: rewrite the first binding in place, or
append a new binding at the end (CPython dict insertion order). -/
def alSet {κ α : Type} [DecidableEq κ] : List (κ × α) → κ → α → List (κ × α)
  | [], key, v => [(key, v)]
  | (k, w) :: rest, key, v =>
    if k = key then (k, v) :: rest else (k, w) :: alSet rest key v

/-- `TransferConnection` (TransferConnection.py, lines 14-39): a directed
candidate interchange between two routes.  `walking_distance_km` and
`walking_time_seconds` are floats in the source, modelled as `ℚ`;
`min_transfer_time` and `max_waiting_time` are Python ints. -/
structure TransferConnection where
  from_route_id : String
  to_route_id : String
  from_stop_id : String
  to_stop_id : String
  walking_distance_km : ℚ
  walking_time_seconds : ℚ
  min_transfer_time : ℤ := 120
  max_waiting_time : ℤ := 900
  transfer_type : String := "nearby"
  deriving Repr, DecidableEq

/-- `TransferConnection.is_viable` (TransferConnection.py, lines 41-60):
returns `False` when `walking_distance_km > 0.5`, then `False` when
`walking_time_seconds > 600`, else `True`. -/
def TransferConnection.is_viable (t : TransferConnection) : Bool :=
  if t.walking_distance_km > 1/2 then false
  else if t.walking_time_seconds > 600 then false
  else true

/-- `TransferManager` (TransferConnection.py, lines 96-111): registry of
transfers keyed by `(from_route, from_stop)` plus a reverse index keyed by
`to_route_id`. -/
structure TransferManager where
  transfers : List ((String × String) × List TransferConnection) := []
  transfers_by_destination : List (String × List (String × String × TransferConnection)) := []
  deriving Repr, DecidableEq

/-- `TransferManager.add_transfer` (TransferConnection.py, lines 113-133). -/
def TransferManager.add_transfer (m : TransferManager) (t : TransferConnection) :
    TransferManager :=
  let key := (t.from_route_id, t.from_stop_id)
  let cur := (alGet m.transfers key).getD []
  let transfers' := alSet m.transfers key (cur ++ [t])
  let curDest := (alGet m.transfers_by_destination t.to_route_id).getD []
  let dest' := alSet m.transfers_by_destination t.to_route_id
    (curDest ++ [(t.from_route_id, t.from_stop_id, t)])
  { transfers := transfers', transfers_by_destination := dest' }

/-- `TransferManager.get_transfers_from` (TransferConnection.py, lines
135-147): `self.transfers.get((route_id, stop_id), [])`.  The method body
contains no assignment, so the manager state is returned unchanged; the
pair makes that explicit. -/
def TransferManager.get_transfers_from (m : TransferManager)
    (route_id stop_id : String) : List TransferConnection × TransferManager :=
  ((alGet m.transfers (route_id, stop_id)).getD [], m)

/-- `TransferManager.get_viable_transfers_from` (TransferConnection.py,
lines 161-173): filters `get_transfers_from` by `is_viable`. -/
def TransferManager.get_viable_transfers_from (m : TransferManager)
    (route_id stop_id : String) : List TransferConnection × TransferManager :=
  let r := m.get_transfers_from route_id stop_id
  (r.1.filter (fun t => t.is_viable), r.2)

/-- One element of `self.scheduler.stops` (pygtfs stop), as consumed by
`GTFSData.get_nearby_stops`: an id and optional latitude/longitude. -/
structure SchedStop where
  stop_id : String
  stop_lat : Option ℚ
  stop_lon : Option ℚ
  deriving Repr, DecidableEq

/-- One value of the `self.route_stops[route_id]` dictionary
(GTFSData.py, lines 144-151).  `coordinates` is stored as `(lon, lat)`
(line 137).  The `arrival_times` list is not consumed by any function
modelled here and is omitted. -/
structure StopInfo where
  stop_id : String
  coordinates : ℚ × ℚ
  orientation : String
  sequence : ℤ
  deriving Repr, DecidableEq

/-- The `GTFSData` state consumed by the functions under verification:
the pygtfs stop list, the `route_stops` nested dictionary, and the
haversine metric.  The source computes haversine with float trigonometry
(GTFSData.py, lines 389-409); it is abstracted here as a rational-valued
function so that the model stays executable, and all general theorems
hold for an arbitrary metric. -/
structure GTFSData where
  schedStops : List SchedStop
  route_stops : List (String × List (String × StopInfo))
  haversine : ℚ → ℚ → ℚ → ℚ → ℚ

/-- The comparison used by `nearby_stops.sort(key=lambda x: x[1])`.
Python's `list.sort` is a stable sort by the key; a stable sort with
respect to a total preorder is unique, so the stable, structurally
recursive `List.insertionSort` models it exactly. -/
def distLe (a b : String × ℚ) : Prop := a.2 ≤ b.2

instance : DecidableRel distLe := fun a b => inferInstanceAs (Decidable (a.2 ≤ b.2))

instance : IsTotal (String × ℚ) distLe := ⟨fun a b => le_total a.2 b.2⟩

instance : IsTrans (String × ℚ) distLe := ⟨fun _ _ _ h1 h2 => le_trans h1 h2⟩

/-- `GTFSData.get_nearby_stops` (GTFSData.py, lines 924-953): collect
stops with non-null coordinates within `margin_km` of `(lat, lon)`, sort
by distance (Python's stable sort), return at most `max_stops`. -/
def GTFSData.get_nearby_stops (g : GTFSData) (lat lon margin_km : ℚ)
    (max_stops : ℕ) : List (String × ℚ) :=
  let nearby := g.schedStops.filterMap (fun s =>
    match s.stop_lat, s.stop_lon with
    | some la, some lo =>
      let d := g.haversine lon lat lo la
      if d ≤ margin_km then some (s.stop_id, d) else none
    | _, _ => none)
  (nearby.insertionSort distLe).take max_stops

/-- `GTFSData.get_stop_coords` (GTFSData.py, lines 411-427): scan
`route_stops` in insertion order and return the first matching stop's
stored `(lon, lat)` coordinates. -/
def GTFSData.get_stop_coords (g : GTFSData) (stop_id : String) :
    Option (ℚ × ℚ) :=
  g.route_stops.findSome? (fun rs =>
    rs.2.findSome? (fun p =>
      if p.2.stop_id = stop_id then some p.2.coordinates else none))

/-- `GTFSData.find_nearby_routes` (GTFSData.py, lines 955-996): group the
nearby stops (excluding the query stop itself) by every route whose stop
dictionary contains them, then sort each route's list by distance. -/
def GTFSData.find_nearby_routes (g : GTFSData) (stop_id : String)
    (margin_km : ℚ) : List (String × List (String × ℚ)) :=
  match g.get_stop_coords stop_id with
  | none => []
  | some sc =>
    let nearby := g.get_nearby_stops sc.2 sc.1 margin_km 50
    let grouped := nearby.foldl (fun acc p =>
      if p.1 = stop_id then acc
      else g.route_stops.foldl (fun acc2 rs =>
        if rs.2.any (fun q => q.1 = p.1) then
          alSet acc2 rs.1 ((alGet acc2 rs.1).getD [] ++ [p])
        else acc2) acc) []
    grouped.map (fun rp => (rp.1, rp.2.insertionSort distLe))

/-- The `TransferConnection` synthesized at GTFSData.py lines 1033-1056
for one nearby stop of one destination route. -/
def mkTransfer (from_route_id from_stop_id to_route_id to_stop_id : String)
    (distance walking_speed_kmh : ℚ) (max_waiting_minutes : ℤ) :
    TransferConnection :=
  let walking_time := distance / walking_speed_kmh * 3600
  { from_route_id := from_route_id
    to_route_id := to_route_id
    from_stop_id := from_stop_id
    to_stop_id := to_stop_id
    walking_distance_km := distance
    walking_time_seconds := walking_time
    min_transfer_time := max 120 (pyInt walking_time)
    max_waiting_time := max_waiting_minutes * 60
    transfer_type :=
      if from_stop_id = to_stop_id then "same_stop"
      else if distance < 1/20 then "nearby"
      else "walking" }

/-- The transfers created by `GTFSData.compute_all_transfers`
(GTFSData.py, lines 998-1069), in creation order: for every
`(route, stop)` pair, every nearby route other than the origin route
contributes its three nearest stops. -/
def GTFSData.compute_all_transfers_list (g : GTFSData)
    (max_distance_km : ℚ) (max_waiting_minutes : ℤ)
    (walking_speed_kmh : ℚ) : List TransferConnection :=
  g.route_stops.foldl (fun acc rs =>
    rs.2.foldl (fun acc2 sp =>
      let nearby_routes := g.find_nearby_routes sp.1 max_distance_km
      nearby_routes.foldl (fun acc3 tr =>
        if rs.1 = tr.1 then acc3
        else (tr.2.take 3).foldl (fun acc4 ts =>
          acc4 ++ [mkTransfer rs.1 sp.1 tr.1 ts.1 ts.2 walking_speed_kmh
            max_waiting_minutes]) acc3) acc2) acc) []

/-- `GTFSData.compute_all_transfers` (GTFSData.py, lines 998-1069): the
manager obtained by registering every created transfer in order. -/
def GTFSData.compute_all_transfers (g : GTFSData) (max_distance_km : ℚ)
    (max_waiting_minutes : ℤ) (walking_speed_kmh : ℚ) : TransferManager :=
  (g.compute_all_transfers_list max_distance_km max_waiting_minutes
    walking_speed_kmh).foldl TransferManager.add_transfer {}

/-- One journey segment (the dicts built in
`ConnectionScanAlgorithm._reconstruct_journey`): a walk, a transit hop, or
a transfer.  All times and durations are rational seconds. -/
inductive Segment where
  | walk (from_loc to_loc : String) (distance_km duration start_time end_time : ℚ)
  | transit (route_id from_stop to_stop : String)
      (departure_time arrival_time duration : ℚ)
  | transfer (from_route to_route at_stop : String) (duration : ℚ)
  deriving Repr, DecidableEq

/-- `Journey` (ConnectionScanAlgorithm.py, lines 35-56). -/
structure Journey where
  segments : List Segment
  total_duration : ℚ
  departure_time : ℚ
  arrival_time : ℚ
  number_of_transfers : ℕ
  total_walking_distance : ℚ
  deriving Repr, DecidableEq

/-- The ordered route-id sequence of a journey's transit segments
(the comprehension at ConnectionScanAlgorithm.py lines 427-428). -/
def Journey.route_sequence (j : Journey) : List String :=
  j.segments.filterMap (fun s =>
    match s with
    | Segment.transit rid _ _ _ _ _ => some rid
    | _ => none)

/-- `ConnectionScanAlgorithm` configuration (ConnectionScanAlgorithm.py,
lines 68-90). -/
structure CSA where
  gtfs : GTFSData
  transfer_manager : Option TransferManager
  max_walking_km : ℚ := 1
  walking_speed : ℚ := 5
  max_transfers : ℕ := 3

/-- `_get_routes_at_stop` (ConnectionScanAlgorithm.py, lines 260-266):
every route whose stop dictionary has `stop_id` as a key, in
`route_stops` insertion order. -/
def CSA.get_routes_at_stop (c : CSA) (stop_id : String) : List String :=
  (c.gtfs.route_stops.filter (fun rs => rs.2.any (fun p => p.1 = stop_id))).map
    (fun rs => rs.1)

/-- `_is_transfer_viable` (ConnectionScanAlgorithm.py, lines 268-282):
without a transfer manager every transfer is allowed; otherwise some
registered transfer to `to_route` must be viable. -/
def CSA.is_transfer_viable (c : CSA) (from_route stop_id to_route : String) :
    Bool :=
  match c.transfer_manager with
  | none => true
  | some m =>
    (m.get_transfers_from from_route stop_id).1.any
      (fun t => decide (t.to_route_id = to_route) && t.is_viable)

/-- `_get_next_stops_on_route` (ConnectionScanAlgorithm.py, lines
284-311): every stop of the route with a strictly larger sequence number,
with estimated arrival `current_time + 2 minutes × sequence difference`. -/
def CSA.get_next_stops_on_route (c : CSA) (route_id current_stop : String)
    (current_time : ℚ) : List (String × ℚ) :=
  match alGet c.gtfs.route_stops route_id with
  | none => []
  | some route_stops =>
    match alGet route_stops current_stop with
    | none => []
    | some info =>
      route_stops.foldl (fun acc p =>
        if p.2.sequence > info.sequence then
          acc ++ [(p.1, current_time + 120 * ((p.2.sequence - info.sequence : ℤ) : ℚ))]
        else acc) []

/-- One entry of the scan's priority queue: the Python tuple
`(arrival_time, stop_id, from_route, num_transfers)`. -/
structure QEntry where
  arrival : ℚ
  stop : String
  route : Option String
  transfers : ℕ
  deriving Repr, DecidableEq

/-- Python `<` on `Optional[str]` as used inside heap-tuple comparison.
CPython raises `TypeError` on `None < str`; ties that would reach that
comparison do not occur in any run modelled here, and `None` is ordered
first. -/
def optStrLt : Option String → Option String → Bool
  | none, none => false
  | none, some _ => true
  | some _, none => false
  | some a, some b => decide (a < b)

/-- Lexicographic order on queue entries (Python tuple `<`). -/
def qLt (a b : QEntry) : Bool :=
  if a.arrival < b.arrival then true
  else if b.arrival < a.arrival then false
  else if a.stop < b.stop then true
  else if b.stop < a.stop then false
  else if optStrLt a.route b.route then true
  else if optStrLt b.route a.route then false
  else a.transfers < b.transfers

/-- `heapq.heappop`: remove a minimal entry (the earliest-pushed one among
equals) from the queue, modelled as a multiset of entries. -/
def popMin : List QEntry → Option (QEntry × List QEntry)
  | [] => none
  | x :: xs =>
    match popMin xs with
    | none => some (x, [])
    | some (m, rest) => if qLt m x then some (m, x :: rest) else some (x, xs)

/-- The per-query scratch state of `_connection_scan`
(ConnectionScanAlgorithm.py, lines 187-196). -/
structure ScanState where
  earliest_arrival : List (String × ℚ)
  in_connection : List (String × (String × String × ℚ × ℚ))
  transfers_used : List (String × ℕ)
  queue : List QEntry
  visited_routes : List (String × String)
  journeys_found : List Journey
  deriving Repr

/-- The relaxation of one `(next_stop, next_arrival_time)` candidate
(ConnectionScanAlgorithm.py, lines 244-256): update on strict
improvement of the earliest arrival and push the stop. -/
def relaxOne (route_id current_stop : String) (arrival : ℚ) (nt : ℕ)
    (st : ScanState) (p : String × ℚ) : ScanState :=
  if (match alGet st.earliest_arrival p.1 with
      | none => true
      | some e => decide (p.2 < e)) = true then
    { st with
      earliest_arrival := alSet st.earliest_arrival p.1 p.2
      in_connection := alSet st.in_connection p.1 (current_stop, route_id, arrival, p.2)
      transfers_used := alSet st.transfers_used p.1 nt
      queue := st.queue ++ [⟨p.2, p.1, some route_id, nt⟩] }
  else st

/-- The body of the `for route_id in routes_at_stop` loop
(ConnectionScanAlgorithm.py, lines 224-256).  The accumulator carries the
loop-local `arrival_time` variable, which the source mutates in place
when a viable transfer adds its 120-second buffer, so the bump persists
for the remaining routes of the same pop. -/
def exploreRoute (c : CSA) (current_stop : String)
    (current_route : Option String) (n : ℕ) (acc : ℚ × ScanState)
    (route_id : String) : ℚ × ScanState :=
  let arrival := acc.1
  let st := acc.2
  if (current_stop, route_id) ∈ st.visited_routes then acc
  else
    let st1 := { st with visited_routes := st.visited_routes ++ [(current_stop, route_id)] }
    match current_route with
    | none =>
      let next := c.get_next_stops_on_route route_id current_stop arrival
      (arrival, next.foldl (relaxOne route_id current_stop arrival n) st1)
    | some r =>
      if r = route_id then
        let next := c.get_next_stops_on_route route_id current_stop arrival
        (arrival, next.foldl (relaxOne route_id current_stop arrival n) st1)
      else if c.is_transfer_viable r current_stop route_id then
        let arrival2 := arrival + 120
        let next := c.get_next_stops_on_route route_id current_stop arrival2
        (arrival2, next.foldl (relaxOne route_id current_stop arrival2 (n + 1)) st1)
      else (arrival, st1)

/-- Exploration of one popped stop: the route loop folded over
`_get_routes_at_stop` (ConnectionScanAlgorithm.py, lines 221-256). -/
def exploreStop (c : CSA) (st : ScanState) (arrival_time : ℚ)
    (current_stop : String) (current_route : Option String) (n : ℕ) :
    ScanState :=
  ((c.get_routes_at_stop current_stop).foldl
    (exploreRoute c current_stop current_route n) (arrival_time, st)).2

/-- The backward `while current_stop != origin_stop` walk of
`_reconstruct_journey` (ConnectionScanAlgorithm.py, lines 334-341),
accumulating `(from_stop, to_stop, route_id, dep_time, arr_time)` hops.
Fuel `in_connection.length + 1` suffices for every acyclic predecessor
chain; on a cyclic chain the Python loop would not terminate, and the
model stops with the current stop still different from the origin. -/
def pathLoop (in_connection : List (String × (String × String × ℚ × ℚ)))
    (origin_stop : String) :
    ℕ → String → List (String × String × String × ℚ × ℚ) →
    List (String × String × String × ℚ × ℚ) × String
  | 0, cur, acc => (acc, cur)
  | fuel + 1, cur, acc =>
    if cur = origin_stop then (acc, cur)
    else
      match alGet in_connection cur with
      | none => (acc, cur)
      | some (fs, rid, dep, arr) =>
        pathLoop in_connection origin_stop fuel fs (acc ++ [(fs, cur, rid, dep, arr)])

/-- End time of the segment preceding the final walk
(ConnectionScanAlgorithm.py, line 388).  The source indexes
`'arrival_time'` for a transit segment and `'end_time'` otherwise; a
trailing transfer segment (which carries neither key and would raise
`KeyError`) cannot occur, since each iteration of the path loop appends a
transit segment last. -/
def lastSegmentEnd : Segment → ℚ
  | Segment.transit _ _ _ _ arr _ => arr
  | Segment.walk _ _ _ _ _ e => e
  | Segment.transfer _ _ _ _ => 0

/-- `_reconstruct_journey` (ConnectionScanAlgorithm.py, lines 313-411).
The `earliest_arrival` parameter of the source is never read by the body
and the coordinate parameters only flow into the literal strings
`'origin'`/`'destination'`; both are therefore omitted here. -/
def CSA.reconstruct_journey (c : CSA) (origin_stop destination_stop : String)
    (in_connection : List (String × (String × String × ℚ × ℚ)))
    (origin_walk_dist dest_walk_dist actual_departure : ℚ) : Option Journey :=
  match alGet in_connection destination_stop with
  | none => none
  | some _ =>
    let r := pathLoop in_connection origin_stop (in_connection.length + 1)
      destination_stop []
    if r.1 = [] ∨ r.2 ≠ origin_stop then none
    else
      let path := r.1.reverse
      let walk_time_sec := origin_walk_dist / c.walking_speed * 3600
      let seg0 := Segment.walk "origin" origin_stop origin_walk_dist
        walk_time_sec actual_departure (actual_departure + walk_time_sec)
      let trip := path.foldl
        (fun (acc : Option String × ℕ × List Segment) h =>
          let pr := acc.1
          let nt := acc.2.1
          let segs := acc.2.2
          match pr with
          | some p =>
            if p ≠ h.2.2.1 then
              (some h.2.2.1, nt + 1, segs ++
                [Segment.transfer p h.2.2.1 h.1 120,
                 Segment.transit h.2.2.1 h.1 h.2.1 h.2.2.2.1 h.2.2.2.2
                   (h.2.2.2.2 - h.2.2.2.1)])
            else
              (some h.2.2.1, nt, segs ++
                [Segment.transit h.2.2.1 h.1 h.2.1 h.2.2.2.1 h.2.2.2.2
                  (h.2.2.2.2 - h.2.2.2.1)])
          | none =>
            (some h.2.2.1, nt, segs ++
              [Segment.transit h.2.2.1 h.1 h.2.1 h.2.2.2.1 h.2.2.2.2
                (h.2.2.2.2 - h.2.2.2.1)]))
        (none, 0, [seg0])
      let segs := trip.2.2
      let final_walk_time_sec := dest_walk_dist / c.walking_speed * 3600
      let last_end := lastSegmentEnd ((segs.getLast?).getD seg0)
      let segN := Segment.walk destination_stop "destination" dest_walk_dist
        final_walk_time_sec last_end (last_end + final_walk_time_sec)
      some
        { segments := segs ++ [segN]
          total_duration := (last_end + final_walk_time_sec) - actual_departure
          departure_time := actual_departure
          arrival_time := last_end + final_walk_time_sec
          number_of_transfers := trip.2.1
          total_walking_distance := origin_walk_dist + dest_walk_dist }

/-- The `while queue` loop of `_connection_scan`
(ConnectionScanAlgorithm.py, lines 198-256): pop the minimal entry;
at the destination reconstruct a journey (stopping after the third one);
otherwise prune when the transfer count exceeds the maximum, else explore
the stop's routes. -/
def scanLoop (c : CSA) (origin_stop destination_stop : String)
    (origin_walk_dist dest_walk_dist actual_departure : ℚ) :
    ℕ → ScanState → ScanState
  | 0, st => st
  | fuel + 1, st =>
    match popMin st.queue with
    | none => st
    | some (e, rest) =>
      let st1 := { st with queue := rest }
      if e.stop = destination_stop then
        match c.reconstruct_journey origin_stop destination_stop
          st1.in_connection origin_walk_dist dest_walk_dist actual_departure with
        | some j =>
          let st2 := { st1 with journeys_found := st1.journeys_found ++ [j] }
          if st2.journeys_found.length ≥ 3 then st2
          else scanLoop c origin_stop destination_stop origin_walk_dist
            dest_walk_dist actual_departure fuel st2
        | none =>
          scanLoop c origin_stop destination_stop origin_walk_dist
            dest_walk_dist actual_departure fuel st1
      else if e.transfers > c.max_transfers then
        scanLoop c origin_stop destination_stop origin_walk_dist
          dest_walk_dist actual_departure fuel st1
      else
        scanLoop c origin_stop destination_stop origin_walk_dist
          dest_walk_dist actual_departure fuel
          (exploreStop c st1 e.arrival e.stop e.route e.transfers)

/-- Iteration budget dominating the Python loop: each `(stop, route)`
pair is explored at most once (the global `visited_routes` set), one
exploration pushes at most one entry per stop of the explored route, and
each iteration pops one entry, so the loop runs at most
`1 + (Σ route sizes)²` times. -/
def CSA.scan_fuel (c : CSA) : ℕ :=
  let n := c.gtfs.route_stops.foldl (fun a rs => a + rs.2.length) 0
  n * n + 2

/-- The initial scratch state of `_connection_scan`
(ConnectionScanAlgorithm.py, lines 187-193). -/
def initialState (origin_stop : String) (start_time : ℚ) : ScanState :=
  { earliest_arrival := [(origin_stop, start_time)]
    in_connection := []
    transfers_used := [(origin_stop, 0)]
    queue := [⟨start_time, origin_stop, none, 0⟩]
    visited_routes := []
    journeys_found := [] }

/-- `_connection_scan` (ConnectionScanAlgorithm.py, lines 174-258):
the journeys found by running the scan loop to completion from the
initial state. -/
def CSA.connection_scan (c : CSA) (origin_stop destination_stop : String)
    (start_time origin_walk_dist dest_walk_dist actual_departure : ℚ) :
    List Journey :=
  (scanLoop c origin_stop destination_stop origin_walk_dist dest_walk_dist
    actual_departure c.scan_fuel (initialState origin_stop start_time)).journeys_found

/-- `_filter_similar_journeys` (ConnectionScanAlgorithm.py, lines
413-437): keep the head, then keep each later journey only when its
transit route sequence differs from every kept journey's. -/
def CSA.filter_similar_journeys (journeys : List Journey) : List Journey :=
  match journeys with
  | [] => []
  | j :: rest =>
    rest.foldl (fun unique j2 =>
      if unique.any (fun e => decide (j2.route_sequence = e.route_sequence))
      then unique else unique ++ [j2]) [j]

/-- `find_journey` (ConnectionScanAlgorithm.py, lines 92-172), modelled
up to the point Python reaches: an empty nearby-stop list at the origin
or the destination yields an empty result, and otherwise the statement
`for origin_stop, origin_dist, origin_walk_time in origin_stops:` at line
139 unpacks the 2-tuples `(stop_id, distance)` produced by
`GTFSData.get_nearby_stops` into three names and raises `ValueError`. -/
def CSA.find_journey (c : CSA) (origin_lat origin_lon dest_lat dest_lon : ℚ)
    (_departure_time : ℚ) : Except String (List Journey) :=
  let origin_stops := c.gtfs.get_nearby_stops origin_lat origin_lon
    c.max_walking_km 10
  if origin_stops = [] then Except.ok []
  else
    let destination_stops := c.gtfs.get_nearby_stops dest_lat dest_lon
      c.max_walking_km 10
    if destination_stops = [] then Except.ok []
    else Except.error "ValueError: not enough values to unpack (expected 3, got 2)"

/-- Route-stop entry with stored `(lon, lat)` coordinates. -/
def mkInfo (sid : String) (lon lat : ℚ) (seq : ℤ) : StopInfo :=
  { stop_id := sid, coordinates := (lon, lat), orientation := "round", sequence := seq }

/-- A zero-distance, zero-walking-time (hence viable) transfer. -/
def mkViableTransfer (fr toR fs ts : String) : TransferConnection :=
  { from_route_id := fr, to_route_id := toR, from_stop_id := fs, to_stop_id := ts
    walking_distance_km := 0, walking_time_seconds := 0 }

/-- Timetable for the max-transfers experiments: a fast two-leg path
`O -RF-> M -RX-> S` (one transfer), a slow direct route `RC : O -> S`
(sequence gap 4), three dead-end routes `RQ1`-`RQ3` ending at `S`, and
the final route `RR : S -> D`. -/
def gEx1 : GTFSData :=
  { schedStops := []
    route_stops :=
      [("RC", [("O", mkInfo "O" 0 0 1), ("S", mkInfo "S" 0 0 5)]),
       ("RF", [("O", mkInfo "O" 0 0 1), ("M", mkInfo "M" 0 0 2)]),
       ("RQ1", [("Z1", mkInfo "Z1" 0 0 1), ("S", mkInfo "S" 0 0 2)]),
       ("RQ2", [("Z2", mkInfo "Z2" 0 0 1), ("S", mkInfo "S" 0 0 2)]),
       ("RQ3", [("Z3", mkInfo "Z3" 0 0 1), ("S", mkInfo "S" 0 0 2)]),
       ("RX", [("M", mkInfo "M" 0 0 1), ("S", mkInfo "S" 0 0 2)]),
       ("RR", [("S", mkInfo "S" 0 0 1), ("D", mkInfo "D" 0 0 2)])]
    haversine := fun _ _ _ _ => 0 }

/-- Transfer index for `gEx1`: `RF -> RX` at `M`; `RX -> RQ1..RQ3` and
`RX -> RR` at `S`; `RC -> RR` at `S`.  Nothing is registered from `RC`
to the `RQ` routes or from `RX` to `RC`. -/
def tmEx1 : TransferManager :=
  { transfers :=
      [(("RF", "M"), [mkViableTransfer "RF" "RX" "M" "M"]),
       (("RX", "S"),
        [mkViableTransfer "RX" "RQ1" "S" "S", mkViableTransfer "RX" "RQ2" "S" "S",
         mkViableTransfer "RX" "RQ3" "S" "S", mkViableTransfer "RX" "RR" "S" "S"]),
       (("RC", "S"), [mkViableTransfer "RC" "RR" "S" "S"])]
    transfers_by_destination := [] }

/-- The scanner over `gEx1` with a given transfer bound. -/
def csaEx1 (k : ℕ) : CSA :=
  { gtfs := gEx1, transfer_manager := some tmEx1, max_transfers := k }

/-- Two-route timetable `R1 : A -> B`, `R2 : B -> C` with no transfer
manager (every transfer allowed). -/
def gEx2 : GTFSData :=
  { schedStops := []
    route_stops :=
      [("R1", [("A", mkInfo "A" 0 0 1), ("B", mkInfo "B" 0 0 2)]),
       ("R2", [("B", mkInfo "B" 0 0 1), ("C", mkInfo "C" 0 0 2)])]
    haversine := fun _ _ _ _ => 0 }

/-- Scanner over `gEx2` configured with `max_transfers = 0`. -/
def csaEx2 : CSA :=
  { gtfs := gEx2, transfer_manager := none, max_transfers := 0 }

/-- Transfer index registering a single viable transfer `R1 -> R2` at `B`
whose `min_transfer_time` is 360 seconds (walking 0.4 km, 288 s). -/
def tmEx3 : TransferManager :=
  { transfers :=
      [(("R1", "B"),
        [{ from_route_id := "R1", to_route_id := "R2", from_stop_id := "B",
           to_stop_id := "B", walking_distance_km := 2/5,
           walking_time_seconds := 288, min_transfer_time := 360 }])]
    transfers_by_destination := [] }

/-- Scanner over `gEx2` consulting `tmEx3`. -/
def csaEx3 : CSA :=
  { gtfs := gEx2, transfer_manager := some tmEx3, max_transfers := 3 }

/-- Two one-stop routes `RA : {P}` and `RB : {Q}`, with a metric under
which `Q` lies 0.181 km from `P` (and everything else at distance 0),
so the synthesized `RA -> RB` transfer gets walking time
`0.181 / 5 * 3600 = 130.32` seconds. -/
def gEx5 : GTFSData :=
  { schedStops :=
      [{ stop_id := "P", stop_lat := some 0, stop_lon := some 0 },
       { stop_id := "Q", stop_lat := some 1, stop_lon := some 1 }]
    route_stops :=
      [("RA", [("P", mkInfo "P" 0 0 1)]),
       ("RB", [("Q", mkInfo "Q" 1 1 1)])]
    haversine := fun _ _ lon2 lat2 =>
      if lon2 = 1 ∧ lat2 = 1 then 181/1000 else 0 }

/-- Two disconnected stops: `P` near the point `(0, 0)` and `Q` near
`(1, 1)`, more than the walking radius apart under the L1-style metric. -/
def gEx6 : GTFSData :=
  { schedStops :=
      [{ stop_id := "P", stop_lat := some 0, stop_lon := some 0 },
       { stop_id := "Q", stop_lat := some 1, stop_lon := some 1 }]
    route_stops :=
      [("R1", [("P", mkInfo "P" 0 0 1)]),
       ("R2", [("Q", mkInfo "Q" 1 1 1)])]
    haversine := fun lon1 lat1 lon2 lat2 => |lon2 - lon1| + |lat2 - lat1| }

/-- Scanner over `gEx6` with the default configuration. -/
def csaEx6 : CSA :=
  { gtfs := gEx6, transfer_manager := none }

/-- A predecessor map whose chain from `C` stops at `B`, which has no
recorded predecessor: the reconstruction chain is broken before the
origin `A`. -/
def brokenChain : List (String × (String × String × ℚ × ℚ)) :=
  [("C", ("B", "R2", 0, 120))]

/-- One route `R` holding both the query stop `S` and a candidate stop
`C` whose only route is that same `R`, 0.2 km away. -/
def gEx8 : GTFSData :=
  { schedStops :=
      [{ stop_id := "S", stop_lat := some 0, stop_lon := some 0 },
       { stop_id := "C", stop_lat := some 1, stop_lon := some 1 }]
    route_stops :=
      [("R", [("S", mkInfo "S" 0 0 1), ("C", mkInfo "C" 1 1 2)])]
    haversine := fun lon1 lat1 lon2 lat2 => (|lon2 - lon1| + |lat2 - lat1|) / 10 }

/-- Scanner over `gEx8` (default configuration, no transfer manager). -/
def csaEx8 : CSA :=
  { gtfs := gEx8, transfer_manager := none }

/-- The first transfer created by `compute_all_transfers` over `gEx5`:
from route `RA` at `P` to route `RB` at `Q`, 0.181 km away. -/
def tEx5 : TransferConnection :=
  mkTransfer "RA" "P" "RB" "Q" (181/1000) 5 15

/-- Replace every registered transfer's `min_transfer_time` (in both
indices of the manager) by an arbitrary function of the transfer,
leaving every other field unchanged. -/
def TransferManager.override_min_transfer_times (m : TransferManager)
    (f : TransferConnection → ℤ) : TransferManager :=
  { transfers := m.transfers.map
      (fun kv => (kv.1, kv.2.map (fun t => { t with min_transfer_time := f t })))
    transfers_by_destination := m.transfers_by_destination.map
      (fun kv => (kv.1, kv.2.map
        (fun q => (q.1, q.2.1, { q.2.2 with min_transfer_time := f q.2.2 })))) }

/-- A one-segment journey on route `R1`. -/
def jA : Journey :=
  { segments := [Segment.transit "R1" "A" "B" 0 120 120]
    total_duration := 120, departure_time := 0, arrival_time := 120
    number_of_transfers := 0, total_walking_distance := 0 }

/-- A slower journey with the same transit route sequence as `jA`. -/
def jB : Journey :=
  { segments := [Segment.transit "R1" "A" "B" 60 240 180]
    total_duration := 240, departure_time := 60, arrival_time := 300
    number_of_transfers := 0, total_walking_distance := 0 }

/-- Every recorded in-connection `(from_stop, route, dep, arr)` satisfies
`dep < arr`. -/
def inConnStrict (ic : List (String × (String × String × ℚ × ℚ))) : Prop :=
  ∀ kv ∈ ic, kv.2.2.2.1 < kv.2.2.2.2

/-- Every transit segment of the journey has an arrival time strictly
after its departure time. -/
def journeyStrict (j : Journey) : Prop :=
  ∀ seg ∈ j.segments, ∀ rid fs ts dep arr dur,
    seg = Segment.transit rid fs ts dep arr dur → dep < arr

/-- The scan-state invariant behind claim C9: recorded in-connections
and all found journeys are strictly time-consistent. -/
def stateStrict (st : ScanState) : Prop :=
  inConnStrict st.in_connection ∧ ∀ j ∈ st.journeys_found, journeyStrict j

set_option maxRecDepth 4000

/-- C1: earliest-arrival monotonicity fails on the code.  Over `gEx1`,
the scan with `max_transfers = 0` finds one journey arriving at 720 s
after departure, while the identical query with `max_transfers = 1`
finds one journey arriving at 960 s: relaxing the transfer bound
worsened the earliest arrival.  (With the larger bound, the
one-transfer pop at stop `S` marks `(S, RR)` in `visited_routes` at an
arrival time inflated by three stacked 120-second buffers, which blocks
the later, better exploration of `RR` that the stricter run performs.) -/
theorem C1_monotonicity_violation :
    ((csaEx1 0).connection_scan "O" "D" 0 0 0 0).map Journey.arrival_time = [720] ∧
    ((csaEx1 1).connection_scan "O" "D" 0 0 0 0).map Journey.arrival_time = [960] ∧
    (csaEx1 1).max_transfers = (csaEx1 0).max_transfers + 1 ∧
    ¬ ((960 : ℚ) ≤ 720) := by
  refine ⟨by with_unfolding_all rfl, by with_unfolding_all rfl, rfl, by norm_num⟩

/-- C2: the transfer bound does not hold for returned journeys.  Over
`gEx2` with `max_transfers = 0`, the scan returns a journey whose
`number_of_transfers` is 1: the candidate reaching the destination is
reconstructed before the pruning check at
ConnectionScanAlgorithm.py line 218 is ever applied to it. -/
theorem C2_transfer_bound_violation :
    csaEx2.max_transfers = 0 ∧
    (csaEx2.connection_scan "A" "C" 0 0 0 0).map Journey.number_of_transfers = [1] :=
  ⟨rfl, by with_unfolding_all rfl⟩

/-- C6: the no-path outcomes.  When no stop is near the origin or near
the destination, `find_journey` returns an empty list, and a broken
predecessor chain makes `_reconstruct_journey` return `None`; but when
both endpoints do have nearby stops (here two stops with no connecting
route), `find_journey` raises `ValueError` instead of returning an
empty list, because line 139 unpacks the 2-tuples produced by
`get_nearby_stops` into three variables. -/
theorem C6_no_path_behaviour :
    csaEx6.find_journey 50 50 1 1 0 = Except.ok [] ∧
    csaEx6.find_journey 0 0 50 50 0 = Except.ok [] ∧
    csaEx6.reconstruct_journey "A" "C" brokenChain 0 0 0 = none ∧
    csaEx6.find_journey 0 0 1 1 0 =
      Except.error "ValueError: not enough values to unpack (expected 3, got 2)" :=
  ⟨by with_unfolding_all rfl, by with_unfolding_all rfl,
   by with_unfolding_all rfl, by with_unfolding_all rfl⟩

/-- C4: `is_viable` holds exactly when the walking distance is at most
0.5 km and the walking time at most 600 s; the boundary (0.5 km, 600 s)
is viable, 0.51 km is not viable for any walking time, and 601 s is not
viable for any distance. -/
theorem C4_viability_boundary :
    (∀ t : TransferConnection,
      t.is_viable = true ↔
        t.walking_distance_km ≤ 1/2 ∧ t.walking_time_seconds ≤ 600) ∧
    TransferConnection.is_viable
      { from_route_id := "R1", to_route_id := "R2", from_stop_id := "S",
        to_stop_id := "S", walking_distance_km := 1/2,
        walking_time_seconds := 600 } = true ∧
    (∀ wt : ℚ, TransferConnection.is_viable
      { from_route_id := "R1", to_route_id := "R2", from_stop_id := "S",
        to_stop_id := "S", walking_distance_km := 51/100,
        walking_time_seconds := wt } = false) ∧
    (∀ d : ℚ, TransferConnection.is_viable
      { from_route_id := "R1", to_route_id := "R2", from_stop_id := "S",
        to_stop_id := "S", walking_distance_km := d,
        walking_time_seconds := 601 } = false) := by
  refine ⟨fun t => ?_, by norm_num [TransferConnection.is_viable],
    fun wt => by norm_num [TransferConnection.is_viable],
    fun d => ?_⟩
  · unfold TransferConnection.is_viable
    split_ifs with h1 h2
    · simp only [Bool.false_eq_true, false_iff, not_and]
      intro hd
      linarith
    · simp only [Bool.false_eq_true, false_iff, not_and]
      intro hd
      linarith
    · simp only [true_iff]
      exact ⟨by linarith, by linarith⟩
  · unfold TransferConnection.is_viable
    split_ifs with h1 h2
    · rfl
    · rfl
    · norm_num at h2

/-- C10: querying the transfer manager at an unregistered
`(route, stop)` key returns an empty list from both `get_transfers_from`
and `get_viable_transfers_from`, and the manager (both its registry and
its destination index) is returned unchanged. -/
theorem C10_missing_key_safe (m : TransferManager) (r s : String)
    (h : alGet m.transfers (r, s) = none) :
    m.get_transfers_from r s = ([], m) ∧
    m.get_viable_transfers_from r s = ([], m) := by
  unfold TransferManager.get_viable_transfers_from TransferManager.get_transfers_from
  rw [h]
  simp

/-- Witness for C10 at the empty manager and key `("R", "S")`. -/
theorem C10_missing_key_safe_witness :
    TransferManager.get_transfers_from {} "R" "S" = ([], ({} : TransferManager)) ∧
    TransferManager.get_viable_transfers_from {} "R" "S" = ([], ({} : TransferManager)) :=
  C10_missing_key_safe {} "R" "S" rfl

/-- Counterexample to C5: over `gEx5`, the synthesized `RA -> RB`
transfer has walking time `130.32 = 3258/25` seconds but
`min_transfer_time = 130`, because the source truncates the walking time
with `int(...)` before taking the maximum; `max(120 s, walking time)`
would be `130.32`. -/
theorem C5_truncation_counterexample :
    (gEx5.compute_all_transfers_list (1/2) 15 5).map
      (fun t => ((t.min_transfer_time : ℚ), t.walking_time_seconds))
      = [(130, 3258/25), (120, 0)] ∧
    ¬ ((130 : ℚ) = max 120 (3258/25)) := by
  refine ⟨by with_unfolding_all rfl, ?_⟩
  rw [max_eq_right (by norm_num : (120:ℚ) ≤ 3258/25)]
  norm_num

/-- Counterexample to C3: over `gEx2` with a registered viable transfer
`R1 -> R2` at `B` whose `min_transfer_time` is 360 s, the scan departs
`B` on `R2` at 240 s = arrival 120 s + the fixed 120-second constant of
ConnectionScanAlgorithm.py line 238, not at 120 s + 360 s. -/
theorem C3_fixed_buffer_counterexample :
    (tmEx3.get_transfers_from "R1" "B").1.map TransferConnection.min_transfer_time
      = [360] ∧
    (tmEx3.get_transfers_from "R1" "B").1.map TransferConnection.is_viable = [true] ∧
    (csaEx3.connection_scan "A" "C" 0 0 0 0).map
      (fun j => j.segments.filterMap (fun s => match s with
        | Segment.transit _ _ _ dep _ _ => some dep
        | _ => none)) = [[0, 240]] ∧
    (240 : ℚ) = 120 + 120 ∧ ¬ ((240 : ℚ) = 120 + 360) :=
  ⟨by with_unfolding_all rfl, by with_unfolding_all rfl,
   by with_unfolding_all rfl, by norm_num, by norm_num⟩

/-- Counterexample to C8: over `gEx8`, stop `C` lies on no route other
than `R`, the single route through the query stop `S`, yet
`find_nearby_routes "S"` still reports `C` (under `R`) instead of
excluding it. -/
theorem C8_same_route_counterexample :
    gEx8.find_nearby_routes "S" (1/2) = [("R", [("C", 1/5)])] ∧
    csaEx8.get_routes_at_stop "C" = ["R"] ∧
    csaEx8.get_routes_at_stop "S" = ["R"] :=
  ⟨by with_unfolding_all rfl, by with_unfolding_all rfl, by with_unfolding_all rfl⟩

/-- Lookup in a value-mapped association list. -/
theorem alGet_map {κ α β : Type} [DecidableEq κ] (g : α → β) :
    ∀ (l : List (κ × α)) (k : κ),
      alGet (l.map (fun kv => (kv.1, g kv.2))) k = (alGet l k).map g := by
  intro l k
  induction l with
  | nil => rfl
  | cons kv rest ih =>
    obtain ⟨k1, v⟩ := kv
    by_cases h : k1 = k <;> simp [alGet, h, ih]

/-- Elements of a fold whose step only keeps the accumulator or adds
elements satisfying `P` are old elements or satisfy `P`. -/
theorem mem_foldl_of_step {α β : Type} (P : β → Prop) (f : List β → α → List β)
    (hf : ∀ acc x, ∀ t ∈ f acc x, t ∈ acc ∨ P t) :
    ∀ (l : List α) (init : List β), ∀ t ∈ l.foldl f init, t ∈ init ∨ P t := by
  intro l
  induction l with
  | nil => intro init t ht; exact Or.inl ht
  | cons x xs ih =>
    intro init t ht
    simp only [List.foldl_cons] at ht
    rcases ih (f init x) t ht with h | h
    · exact hf init x t h
    · exact Or.inr h

/-- C5 (amended): every transfer created by `compute_all_transfers` has
`min_transfer_time = max(120, int(walking time))` — the walking time
truncated to a whole second by Python's `int(...)` — where the walking
time is the walking distance divided by the configured speed, in
seconds. -/
theorem C5_min_transfer_time_truncated (g : GTFSData) (max_distance_km : ℚ)
    (max_waiting_minutes : ℤ) (walking_speed_kmh : ℚ)
    (hspeed : 0 < walking_speed_kmh) :
    ∀ t ∈ g.compute_all_transfers_list max_distance_km max_waiting_minutes
        walking_speed_kmh,
      t.min_transfer_time = max 120 (pyInt t.walking_time_seconds) ∧
      t.walking_time_seconds = t.walking_distance_km / walking_speed_kmh * 3600 := by
  intro t ht
  have key : t ∈ ([] : List TransferConnection) ∨
      ∃ fr fs rr ss d,
        t = mkTransfer fr fs rr ss d walking_speed_kmh max_waiting_minutes := by
    refine mem_foldl_of_step
      (fun u => ∃ fr fs rr ss d,
        u = mkTransfer fr fs rr ss d walking_speed_kmh max_waiting_minutes)
      _ ?_ _ _ t ht
    intro acc rs u hu
    refine mem_foldl_of_step
      (fun u => ∃ fr fs rr ss d,
        u = mkTransfer fr fs rr ss d walking_speed_kmh max_waiting_minutes)
      _ ?_ rs.2 acc u hu
    intro acc2 sp v hv
    refine mem_foldl_of_step
      (fun u => ∃ fr fs rr ss d,
        u = mkTransfer fr fs rr ss d walking_speed_kmh max_waiting_minutes)
      _ ?_ _ acc2 v hv
    intro acc3 nr w hw
    by_cases heq : rs.1 = nr.1
    · rw [if_pos heq] at hw
      exact Or.inl hw
    · rw [if_neg heq] at hw
      refine mem_foldl_of_step
        (fun u => ∃ fr fs rr ss d,
          u = mkTransfer fr fs rr ss d walking_speed_kmh max_waiting_minutes)
        _ ?_ _ acc3 w hw
      intro acc4 ns z hz
      rcases List.mem_append.mp hz with h | h
      · exact Or.inl h
      · exact Or.inr ⟨rs.1, sp.1, nr.1, ns.1, ns.2, List.mem_singleton.mp h⟩
  rcases key with h | ⟨fr, fs, rr, ss, d, rfl⟩
  · exact absurd h (List.not_mem_nil t)
  · exact ⟨rfl, rfl⟩

/-- Witness for C5 at the first transfer synthesized over `gEx5`. -/
theorem C5_min_transfer_time_truncated_witness :
    tEx5.min_transfer_time = max 120 (pyInt tEx5.walking_time_seconds) ∧
    tEx5.walking_time_seconds = tEx5.walking_distance_km / 5 * 3600 :=
  C5_min_transfer_time_truncated gEx5 (1/2) 15 5 (by norm_num) tEx5
    (by with_unfolding_all exact List.mem_cons_self _ _)

/-- Viability of a transfer does not read `min_transfer_time`. -/
theorem is_viable_override (t : TransferConnection) (n : ℤ) :
    TransferConnection.is_viable { t with min_transfer_time := n }
      = t.is_viable := rfl

/-- The viability consult of the scan is unchanged when every
registered transfer's `min_transfer_time` is overridden. -/
theorem is_transfer_viable_override (c : CSA) (m : TransferManager)
    (f : TransferConnection → ℤ) (r s r2 : String) :
    CSA.is_transfer_viable
      { c with transfer_manager := some (m.override_min_transfer_times f) } r s r2
      = CSA.is_transfer_viable { c with transfer_manager := some m } r s r2 := by
  show ((m.override_min_transfer_times f).get_transfers_from r s).1.any
      (fun t => decide (t.to_route_id = r2) && t.is_viable)
    = (m.get_transfers_from r s).1.any
      (fun t => decide (t.to_route_id = r2) && t.is_viable)
  unfold TransferManager.get_transfers_from TransferManager.override_min_transfer_times
  rw [alGet_map]
  cases alGet m.transfers (r, s) with
  | none => rfl
  | some l =>
    show ((l.map (fun t : TransferConnection =>
          ({ t with min_transfer_time := f t } : TransferConnection))).any
        (fun t : TransferConnection => decide (t.to_route_id = r2) && t.is_viable))
      = l.any (fun t : TransferConnection => decide (t.to_route_id = r2) && t.is_viable)
    rw [List.any_map]
    rfl

/-- One route-loop iteration of the scan is unchanged under
`min_transfer_time` overrides. -/
theorem exploreRoute_override (c : CSA) (m : TransferManager)
    (f : TransferConnection → ℤ) (cs : String) (cr : Option String) (n : ℕ)
    (acc : ℚ × ScanState) (rid : String) :
    exploreRoute { c with transfer_manager := some (m.override_min_transfer_times f) }
        cs cr n acc rid
      = exploreRoute { c with transfer_manager := some m } cs cr n acc rid := by
  unfold exploreRoute
  have hnext : ∀ r s t,
      CSA.get_next_stops_on_route
        { c with transfer_manager := some (m.override_min_transfer_times f) } r s t
      = CSA.get_next_stops_on_route { c with transfer_manager := some m } r s t :=
    fun _ _ _ => rfl
  simp only [is_transfer_viable_override c m f, hnext]

/-- One pop exploration of the scan is unchanged under
`min_transfer_time` overrides. -/
theorem exploreStop_override (c : CSA) (m : TransferManager)
    (f : TransferConnection → ℤ) (st : ScanState) (t : ℚ) (cs : String)
    (cr : Option String) (n : ℕ) :
    exploreStop { c with transfer_manager := some (m.override_min_transfer_times f) }
        st t cs cr n
      = exploreStop { c with transfer_manager := some m } st t cs cr n := by
  unfold exploreStop
  have hroutes : CSA.get_routes_at_stop
      { c with transfer_manager := some (m.override_min_transfer_times f) } cs
      = CSA.get_routes_at_stop { c with transfer_manager := some m } cs := rfl
  have h : exploreRoute { c with transfer_manager := some (m.override_min_transfer_times f) } cs cr n
      = exploreRoute { c with transfer_manager := some m } cs cr n :=
    funext fun acc => funext fun rid => exploreRoute_override c m f cs cr n acc rid
  rw [hroutes, h]

/-- The scan loop is unchanged under `min_transfer_time` overrides. -/
theorem scanLoop_override (c : CSA) (m : TransferManager)
    (f : TransferConnection → ℤ) (o d : String) (owd dwd ad : ℚ) :
    ∀ (fuel : ℕ) (st : ScanState),
      scanLoop { c with transfer_manager := some (m.override_min_transfer_times f) }
          o d owd dwd ad fuel st
        = scanLoop { c with transfer_manager := some m } o d owd dwd ad fuel st := by
  intro fuel
  induction fuel with
  | zero => intro st; rfl
  | succ n ih =>
    intro st
    unfold scanLoop
    cases hpop : popMin st.queue with
    | none => rfl
    | some pr =>
      obtain ⟨e, rest⟩ := pr
      by_cases hd : e.stop = d
      · simp only [if_pos hd]
        have hrec : CSA.reconstruct_journey
            { c with transfer_manager := some (m.override_min_transfer_times f) } o d
            st.in_connection owd dwd ad
            = CSA.reconstruct_journey { c with transfer_manager := some m } o d
              st.in_connection owd dwd ad := rfl
        rw [hrec]
        simp only [ih]
      · simp only [if_neg hd]
        dsimp only
        by_cases hnt : e.transfers > c.max_transfers
        · simp only [if_pos hnt, ih]
        · simp only [if_neg hnt, exploreStop_override c m f, ih]

/-- C3 (amended): on a route change the scan consults the transfer index
only for viability and then adds the fixed 120-second constant of
ConnectionScanAlgorithm.py line 238; the transfers'
`min_transfer_time` values never influence the result, so overriding
all of them arbitrarily leaves every journey of the scan unchanged. -/
theorem C3_scan_ignores_min_transfer_time (c : CSA) (m : TransferManager)
    (f : TransferConnection → ℤ) (o d : String) (start_time owd dwd ad : ℚ) :
    CSA.connection_scan
        { c with transfer_manager := some (m.override_min_transfer_times f) }
        o d start_time owd dwd ad
      = CSA.connection_scan { c with transfer_manager := some m }
        o d start_time owd dwd ad := by
  unfold CSA.connection_scan
  rw [show ({ c with transfer_manager := some (m.override_min_transfer_times f) } : CSA).scan_fuel
      = ({ c with transfer_manager := some m } : CSA).scan_fuel from rfl]
  rw [scanLoop_override c m f o d owd dwd ad]

/-- A successful `find?` is preserved by appending on the right. -/
theorem find?_append_some {α : Type} (p : α → Bool) (l1 l2 : List α) (a : α)
    (h : l1.find? p = some a) : (l1 ++ l2).find? p = some a := by
  induction l1 with
  | nil => simp at h
  | cons x xs ih =>
    cases hpx : p x with
    | true =>
      rw [List.find?_cons_of_pos _ hpx] at h
      rw [List.cons_append, List.find?_cons_of_pos _ hpx]
      exact h
    | false =>
      rw [List.find?_cons_of_neg _ (by simp [hpx])] at h
      rw [List.cons_append, List.find?_cons_of_neg _ (by simp [hpx])]
      exact ih h

/-- A failing `find?` defers to the appended list. -/
theorem find?_append_of_none {α : Type} (p : α → Bool) (l1 l2 : List α)
    (h : l1.find? p = none) : (l1 ++ l2).find? p = l2.find? p := by
  induction l1 with
  | nil => rfl
  | cons x xs ih =>
    rw [List.find?_eq_none] at h
    have hx : ¬ p x = true := h x (List.mem_cons_self x xs)
    rw [List.cons_append, List.find?_cons_of_neg _ hx]
    refine ih ?_
    rw [List.find?_eq_none]
    exact fun a ha => h a (List.mem_cons_of_mem x ha)

/-- The deduplication fold only ever appends to its accumulator. -/
theorem fsj_foldl_eq_append (l : List Journey) :
    ∀ acc : List Journey, ∃ l2,
      l.foldl (fun unique j2 =>
        if unique.any (fun e => decide (j2.route_sequence = e.route_sequence))
        then unique else unique ++ [j2]) acc = acc ++ l2 ∧ l2.Sublist l := by
  induction l with
  | nil => exact fun acc => ⟨[], by simp, List.nil_sublist _⟩
  | cons x xs ih =>
    intro acc
    simp only [List.foldl_cons]
    by_cases h : acc.any (fun e => decide (x.route_sequence = e.route_sequence)) = true
    · rw [if_pos h]
      obtain ⟨l2, he, hs⟩ := ih acc
      exact ⟨l2, he, hs.cons x⟩
    · rw [if_neg h]
      obtain ⟨l2, he, hs⟩ := ih (acc ++ [x])
      refine ⟨x :: l2, ?_, hs.cons₂ x⟩
      rw [he, List.append_assoc]
      rfl

/-- The deduplication fold keeps the route sequences pairwise distinct. -/
theorem fsj_pairwise (l : List Journey) :
    ∀ acc : List Journey,
      acc.Pairwise (fun a b => a.route_sequence ≠ b.route_sequence) →
      (l.foldl (fun unique j2 =>
        if unique.any (fun e => decide (j2.route_sequence = e.route_sequence))
        then unique else unique ++ [j2]) acc).Pairwise
          (fun a b => a.route_sequence ≠ b.route_sequence) := by
  induction l with
  | nil => exact fun acc h => h
  | cons x xs ih =>
    intro acc h
    simp only [List.foldl_cons]
    by_cases hx : acc.any (fun e => decide (x.route_sequence = e.route_sequence)) = true
    · rw [if_pos hx]
      exact ih acc h
    · rw [if_neg hx]
      refine ih _ ?_
      rw [List.pairwise_append]
      refine ⟨h, List.pairwise_singleton _ _, ?_⟩
      intro a ha b hb
      rw [List.mem_singleton] at hb
      subst hb
      intro hab
      exact hx (List.any_eq_true.mpr ⟨a, ha, decide_eq_true hab.symm⟩)

/-- Every processed journey's route sequence is represented in the
result of the deduplication fold. -/
theorem fsj_coverage (l : List Journey) :
    ∀ (acc : List Journey), ∀ j ∈ l,
      ∃ u ∈ l.foldl (fun unique j2 =>
        if unique.any (fun e => decide (j2.route_sequence = e.route_sequence))
        then unique else unique ++ [j2]) acc,
        u.route_sequence = j.route_sequence := by
  induction l with
  | nil => intro acc j hj; exact absurd hj (List.not_mem_nil j)
  | cons x xs ih =>
    intro acc j hj
    simp only [List.foldl_cons]
    rcases List.mem_cons.mp hj with rfl | hj2
    · by_cases hx : acc.any (fun e => decide (j.route_sequence = e.route_sequence)) = true
      · rw [if_pos hx]
        obtain ⟨e, he, hde⟩ := List.any_eq_true.mp hx
        obtain ⟨l2, heq, _⟩ := fsj_foldl_eq_append xs acc
        refine ⟨e, ?_, (of_decide_eq_true hde).symm⟩
        rw [heq]
        exact List.mem_append_left _ he
      · rw [if_neg hx]
        obtain ⟨l2, heq, _⟩ := fsj_foldl_eq_append xs (acc ++ [j])
        refine ⟨j, ?_, rfl⟩
        rw [heq]
        exact List.mem_append_left _ (List.mem_append_right _ (List.mem_singleton_self j))
    · by_cases hx : acc.any (fun e => decide (x.route_sequence = e.route_sequence)) = true
      · rw [if_pos hx]
        exact ih acc j hj2
      · rw [if_neg hx]
        exact ih (acc ++ [x]) j hj2

/-- Every survivor of the deduplication fold is the first journey of the
processed sequence carrying its route sequence. -/
theorem fsj_first (l : List Journey) :
    ∀ (acc pre : List Journey),
      (∀ u ∈ acc,
        pre.find? (fun j2 => decide (j2.route_sequence = u.route_sequence)) = some u) →
      (∀ j ∈ pre, ∃ e ∈ acc, e.route_sequence = j.route_sequence) →
      ∀ u ∈ l.foldl (fun unique j2 =>
        if unique.any (fun e => decide (j2.route_sequence = e.route_sequence))
        then unique else unique ++ [j2]) acc,
        (pre ++ l).find? (fun j2 => decide (j2.route_sequence = u.route_sequence))
          = some u := by
  induction l with
  | nil =>
    intro acc pre h1 _ u hu
    rw [List.append_nil]
    exact h1 u hu
  | cons x xs ih =>
    intro acc pre h1 h2 u hu
    simp only [List.foldl_cons] at hu
    have hps : pre ++ x :: xs = (pre ++ [x]) ++ xs := by simp
    rw [hps]
    by_cases hx : acc.any (fun e => decide (x.route_sequence = e.route_sequence)) = true
    · rw [if_pos hx] at hu
      refine ih acc (pre ++ [x]) ?_ ?_ u hu
      · exact fun v hv => find?_append_some _ _ _ _ (h1 v hv)
      · intro j hj
        rcases List.mem_append.mp hj with hj | hj
        · exact h2 j hj
        · rw [List.mem_singleton] at hj
          subst hj
          obtain ⟨e, he, hde⟩ := List.any_eq_true.mp hx
          exact ⟨e, he, (of_decide_eq_true hde).symm⟩
    · rw [if_neg hx] at hu
      refine ih (acc ++ [x]) (pre ++ [x]) ?_ ?_ u hu
      · intro v hv
        rcases List.mem_append.mp hv with hv | hv
        · exact find?_append_some _ _ _ _ (h1 v hv)
        · rw [List.mem_singleton] at hv
          subst hv
          have hnone : pre.find?
              (fun j2 => decide (j2.route_sequence = v.route_sequence)) = none := by
            rw [List.find?_eq_none]
            intro a ha hpa
            obtain ⟨e, he, hre⟩ := h2 a ha
            refine hx (List.any_eq_true.mpr ⟨e, he, decide_eq_true ?_⟩)
            rw [hre, of_decide_eq_true hpa]
          rw [find?_append_of_none _ _ _ hnone]
          exact List.find?_cons_of_pos _ (by simp)
      · intro j hj
        rcases List.mem_append.mp hj with hj | hj
        · obtain ⟨e, he, hre⟩ := h2 j hj
          exact ⟨e, List.mem_append_left _ he, hre⟩
        · rw [List.mem_singleton] at hj
          subst hj
          exact ⟨j, List.mem_append_right _ (List.mem_singleton_self j), rfl⟩

/-- C7: the journeys surviving `_filter_similar_journeys` (from which
`find_journey` returns a prefix) have pairwise distinct transit route
sequences; the survivors form a subsequence of the input, every input
route sequence is still represented, and each survivor is the first
(best-ranked, since the input is sorted) journey of the input carrying
its route sequence. -/
theorem C7_no_duplicate_route_sequence (journeys : List Journey) (n : ℕ) :
    ((CSA.filter_similar_journeys journeys).take n).Pairwise
      (fun a b => a.route_sequence ≠ b.route_sequence) ∧
    (CSA.filter_similar_journeys journeys).Sublist journeys ∧
    (∀ j ∈ journeys, ∃ u ∈ CSA.filter_similar_journeys journeys,
        u.route_sequence = j.route_sequence) ∧
    (∀ u ∈ CSA.filter_similar_journeys journeys,
        journeys.find? (fun j2 => decide (j2.route_sequence = u.route_sequence))
          = some u) := by
  cases journeys with
  | nil =>
    refine ⟨by simp [CSA.filter_similar_journeys], ?_, ?_, ?_⟩
    · simp [CSA.filter_similar_journeys]
    · intro j hj
      exact absurd hj (List.not_mem_nil j)
    · intro u hu
      simp [CSA.filter_similar_journeys] at hu
  | cons j rest =>
    refine ⟨?_, ?_, ?_, ?_⟩
    · exact List.Pairwise.sublist (List.take_sublist _ _)
        (fsj_pairwise rest [j] (List.pairwise_singleton _ _))
    · obtain ⟨l2, heq, hs⟩ := fsj_foldl_eq_append rest [j]
      have h2 : CSA.filter_similar_journeys (j :: rest) = [j] ++ l2 := heq
      rw [h2]
      exact hs.cons₂ j
    · intro j2 hj2
      rcases List.mem_cons.mp hj2 with rfl | hj2
      · obtain ⟨l2, heq, _⟩ := fsj_foldl_eq_append rest [j2]
        have h2 : CSA.filter_similar_journeys (j2 :: rest) = [j2] ++ l2 := heq
        refine ⟨j2, ?_, rfl⟩
        rw [h2]
        exact List.mem_append_left _ (List.mem_singleton_self j2)
      · exact fsj_coverage rest [j] j2 hj2
    · intro u hu
      have h := fsj_first rest [j] [j] ?_ ?_ u hu
      · exact h
      · intro v hv
        rw [List.mem_singleton] at hv
        subst hv
        exact List.find?_cons_of_pos _ (by simp)
      · intro j2 hj2
        rw [List.mem_singleton] at hj2
        subst hj2
        exact ⟨j2, List.mem_singleton_self j2, rfl⟩

/-- Witness for C7 on a two-journey list sharing the route sequence
`["R1"]`: the surviving journey `jA` is the first input journey carrying
its route sequence. -/
theorem C7_no_duplicate_route_sequence_witness :
    [jA, jB].find? (fun j2 => decide (j2.route_sequence = jA.route_sequence))
      = some jA :=
  (C7_no_duplicate_route_sequence [jA, jB] 2).2.2.2 jA
    (by with_unfolding_all decide)

/-- Lookup after an ordered-dictionary update. -/
theorem alGet_alSet {κ α : Type} [DecidableEq κ] :
    ∀ (l : List (κ × α)) (k k2 : κ) (v : α),
      alGet (alSet l k v) k2 = if k = k2 then some v else alGet l k2 := by
  intro l k k2 v
  induction l with
  | nil => simp [alSet, alGet]
  | cons kv rest ih =>
    obtain ⟨k1, w⟩ := kv
    by_cases h1 : k1 = k
    · subst h1
      simp only [alSet, alGet, if_pos rfl]
      by_cases h2 : k1 = k2 <;> simp [h2]
    · by_cases h2 : k1 = k2
      · subst h2
        have : ¬ k = k1 := fun he => h1 he.symm
        simp [alSet, alGet, h1, this]
      · simp [alSet, alGet, h1, h2, ih]

/-- A fold whose step preserves a predicate preserves it overall. -/
theorem foldl_preserve {α β : Type} (P : β → Prop) (f : β → α → β)
    (hf : ∀ acc x, P acc → P (f acc x)) :
    ∀ (l : List α) (init : β), P init → P (l.foldl f init) := by
  intro l
  induction l with
  | nil => exact fun init h => h
  | cons x xs ih =>
    intro init h
    simp only [List.foldl_cons]
    exact ih _ (hf init x h)

/-- Grouping loop of `find_nearby_routes`: every stop stored under any
route differs from the query stop. -/
theorem fnr_grouped_no_self (g : GTFSData) (stop_id : String)
    (nearby : List (String × ℚ)) (acc : List (String × List (String × ℚ)))
    (hacc : ∀ r2 l2, alGet acc r2 = some l2 → ∀ p ∈ l2, p.1 ≠ stop_id) :
    ∀ r2 l2, alGet (nearby.foldl (fun acc p =>
        if p.1 = stop_id then acc
        else g.route_stops.foldl (fun acc2 rs =>
          if rs.2.any (fun q => q.1 = p.1) then
            alSet acc2 rs.1 ((alGet acc2 rs.1).getD [] ++ [p])
          else acc2) acc) acc) r2 = some l2 →
      ∀ p ∈ l2, p.1 ≠ stop_id := by
  refine foldl_preserve
    (fun acc => ∀ r2 l2, alGet acc r2 = some l2 → ∀ p ∈ l2, p.1 ≠ stop_id)
    _ ?_ nearby acc hacc
  intro acc2 p hp
  by_cases hps : p.1 = stop_id
  · rw [if_pos hps]
    exact hp
  · rw [if_neg hps]
    refine foldl_preserve
      (fun acc => ∀ r2 l2, alGet acc r2 = some l2 → ∀ q ∈ l2, q.1 ≠ stop_id)
      _ ?_ g.route_stops acc2 hp
    intro acc3 rs hp3
    by_cases hm : rs.2.any (fun q => q.1 = p.1) = true
    · rw [if_pos hm]
      intro r2 l2 hget q hq
      rw [alGet_alSet] at hget
      by_cases hr : rs.1 = r2
      · rw [if_pos hr] at hget
        cases hget
        rcases List.mem_append.mp hq with hq | hq
        · cases hold : alGet acc3 rs.1 with
          | none => rw [hold] at hq; simp at hq
          | some old =>
            rw [hold] at hq
            exact hp3 rs.1 old hold q hq
        · rw [List.mem_singleton] at hq
          subst hq
          exact hps
      · rw [if_neg hr] at hget
        exact hp3 r2 l2 hget q hq
    · rw [if_neg hm]
      exact hp3

/-- C8 (amended): every per-route list returned by `find_nearby_routes`
is sorted ascending by distance and never contains the query stop
itself; candidates whose only route is the query stop's own route are
not excluded here (see the counterexample) — the same-route filter is
applied later by `compute_all_transfers`. -/
theorem C8_sorted_excluding_self (g : GTFSData) (stop_id : String)
    (margin_km : ℚ) (r : String) (l : List (String × ℚ))
    (h : alGet (g.find_nearby_routes stop_id margin_km) r = some l) :
    l.Pairwise (fun a b => a.2 ≤ b.2) ∧ ∀ p ∈ l, p.1 ≠ stop_id := by
  unfold GTFSData.find_nearby_routes at h
  revert h
  cases hgc : g.get_stop_coords stop_id with
  | none =>
    intro h
    simp [alGet] at h
  | some sc =>
    intro h
    rw [alGet_map] at h
    cases hg : alGet ((g.get_nearby_stops sc.2 sc.1 margin_km 50).foldl
        (fun acc p =>
          if p.1 = stop_id then acc
          else g.route_stops.foldl (fun acc2 rs =>
            if rs.2.any (fun q => q.1 = p.1) then
              alSet acc2 rs.1 ((alGet acc2 rs.1).getD [] ++ [p])
            else acc2) acc) []) r with
    | none =>
      rw [hg] at h
      simp at h
    | some l0 =>
      rw [hg] at h
      simp only [Option.map_some'] at h
      cases h
      constructor
      · exact List.sorted_insertionSort distLe l0
      · intro p hp
        have hp0 : p ∈ l0 := (List.perm_insertionSort distLe l0).mem_iff.mp hp
        exact fnr_grouped_no_self g stop_id _ []
          (fun r2 l2 hget => by simp [alGet] at hget) r l0 hg p hp0

/-- Witness for C8 at `gEx8`: the list reported for route `R` around
stop `S` is sorted and does not contain `S`. -/
theorem C8_sorted_excluding_self_witness :
    ([("C", (1/5 : ℚ))] : List (String × ℚ)).Pairwise (fun a b => a.2 ≤ b.2) ∧
    ("C", (1/5 : ℚ)).1 ≠ "S" :=
  ⟨(C8_sorted_excluding_self gEx8 "S" (1/2) "R" [("C", 1/5)]
      (by with_unfolding_all rfl)).1,
   (C8_sorted_excluding_self gEx8 "S" (1/2) "R" [("C", 1/5)]
      (by with_unfolding_all rfl)).2 ("C", 1/5) (List.mem_singleton_self _)⟩

/-- Membership after an ordered-dictionary update. -/
theorem mem_alSet {κ α : Type} [DecidableEq κ] :
    ∀ (l : List (κ × α)) (k : κ) (v : α) (kv : κ × α),
      kv ∈ alSet l k v → kv ∈ l ∨ kv = (k, v) := by
  intro l k v kv
  induction l with
  | nil =>
    intro h
    simp [alSet] at h
    exact Or.inr h
  | cons p rest ih =>
    obtain ⟨k1, w⟩ := p
    simp only [alSet]
    by_cases h1 : k1 = k
    · rw [if_pos h1]
      intro h
      rcases List.mem_cons.mp h with rfl | h2
      · exact Or.inr (by rw [h1])
      · exact Or.inl (List.mem_cons_of_mem _ h2)
    · rw [if_neg h1]
      intro h
      rcases List.mem_cons.mp h with rfl | h2
      · exact Or.inl (List.mem_cons_self _ _)
      · rcases ih h2 with h3 | h3
        · exact Or.inl (List.mem_cons_of_mem _ h3)
        · exact Or.inr h3

/-- A successful ordered-dictionary lookup is a member. -/
theorem alGet_mem {κ α : Type} [DecidableEq κ] :
    ∀ (l : List (κ × α)) (k : κ) (v : α), alGet l k = some v → (k, v) ∈ l := by
  intro l k v
  induction l with
  | nil =>
    intro h
    simp [alGet] at h
  | cons p rest ih =>
    obtain ⟨k1, w⟩ := p
    simp only [alGet]
    by_cases h1 : k1 = k
    · rw [if_pos h1]
      intro h
      subst h1
      cases Option.some.inj h
      exact List.mem_cons_self _ _
    · rw [if_neg h1]
      intro h
      exact List.mem_cons_of_mem _ (ih h)

/-- Strict departure-arrival increase for the next-stop fold. -/
theorem next_stops_fold_lt (info : StopInfo) (t : ℚ) :
    ∀ (l : List (String × StopInfo)) (init : List (String × ℚ)),
      (∀ q ∈ init, t < q.2) →
      ∀ p ∈ l.foldl (fun acc p =>
          if p.2.sequence > info.sequence then
            acc ++ [(p.1, t + 120 * ((p.2.sequence - info.sequence : ℤ) : ℚ))]
          else acc) init, t < p.2 := by
  intro l
  induction l with
  | nil => exact fun init h => h
  | cons x xs ih =>
    intro init hinit
    simp only [List.foldl_cons]
    by_cases hseq : x.2.sequence > info.sequence
    · rw [if_pos hseq]
      refine ih _ ?_
      intro q hq
      rcases List.mem_append.mp hq with h | h
      · exact hinit q h
      · rw [List.mem_singleton] at h
        subst h
        have h1 : (1 : ℚ) ≤ ((x.2.sequence - info.sequence : ℤ) : ℚ) := by
          exact_mod_cast (by omega : (1 : ℤ) ≤ x.2.sequence - info.sequence)
        have h2 : (120 : ℚ) ≤ 120 * ((x.2.sequence - info.sequence : ℤ) : ℚ) := by
          nlinarith
        simp only
        linarith
    · rw [if_neg hseq]
      exact ih _ hinit

/-- Reduction of `_get_next_stops_on_route` to its fold once both
lookups succeed. -/
theorem get_next_eq_fold (c : CSA) (r s : String) (t : ℚ)
    (dict : List (String × StopInfo)) (info : StopInfo)
    (h1 : alGet c.gtfs.route_stops r = some dict)
    (h2 : alGet dict s = some info) :
    c.get_next_stops_on_route r s t = dict.foldl (fun acc p =>
      if p.2.sequence > info.sequence then
        acc ++ [(p.1, t + 120 * ((p.2.sequence - info.sequence : ℤ) : ℚ))]
      else acc) [] := by
  unfold CSA.get_next_stops_on_route
  simp only [h1, h2]

/-- Every estimated next-stop arrival lies strictly after the departure
time of `_get_next_stops_on_route`. -/
theorem next_stops_lt (c : CSA) (r s : String) (t : ℚ) :
    ∀ p ∈ c.get_next_stops_on_route r s t, t < p.2 := by
  cases h1 : alGet c.gtfs.route_stops r with
  | none =>
    intro p hp
    unfold CSA.get_next_stops_on_route at hp
    simp only [h1] at hp
    exact absurd hp (List.not_mem_nil p)
  | some dict =>
    cases h2 : alGet dict s with
    | none =>
      intro p hp
      unfold CSA.get_next_stops_on_route at hp
      simp only [h1, h2] at hp
      exact absurd hp (List.not_mem_nil p)
    | some info =>
      rw [get_next_eq_fold c r s t dict info h1 h2]
      exact next_stops_fold_lt info t dict []
        (fun q hq => absurd hq (List.not_mem_nil q))

/-- A route-dictionary entry with a strictly larger sequence number
always contributes its estimated arrival to the next-stop list. -/
theorem next_stops_mem_of_entry (info : StopInfo) (t : ℚ) :
    ∀ (l : List (String × StopInfo)) (init : List (String × ℚ))
      (e : String × StopInfo), e ∈ l → info.sequence < e.2.sequence →
      (e.1, t + 120 * ((e.2.sequence - info.sequence : ℤ) : ℚ)) ∈
        l.foldl (fun acc p =>
          if p.2.sequence > info.sequence then
            acc ++ [(p.1, t + 120 * ((p.2.sequence - info.sequence : ℤ) : ℚ))]
          else acc) init := by
  intro l
  induction l with
  | nil =>
    intro init e he
    exact absurd he (List.not_mem_nil e)
  | cons x xs ih =>
    intro init e he hseq
    simp only [List.foldl_cons]
    rcases List.mem_cons.mp he with rfl | he2
    · refine foldl_preserve
        (fun acc => (e.1, t + 120 * ((e.2.sequence - info.sequence : ℤ) : ℚ)) ∈ acc)
        _ ?_ xs _ ?_
      · intro acc q hmem
        by_cases hq : q.2.sequence > info.sequence
        · rw [if_pos hq]
          exact List.mem_append_left _ hmem
        · rw [if_neg hq]
          exact hmem
      · rw [if_pos hseq]
        exact List.mem_append_right _ (List.mem_singleton_self _)
    · exact ih _ e he2 hseq

/-- `foldl_preserve` refined with membership of the consumed element. -/
theorem foldl_preserve_mem {α β : Type} (P : β → Prop) (f : β → α → β) :
    ∀ (l : List α), (∀ acc x, x ∈ l → P acc → P (f acc x)) →
      ∀ init, P init → P (l.foldl f init) := by
  intro l
  induction l with
  | nil => exact fun _ init h => h
  | cons x xs ih =>
    intro hf init h
    simp only [List.foldl_cons]
    exact ih (fun acc y hy => hf acc y (List.mem_cons_of_mem x hy)) _
      (hf init x (List.mem_cons_self x xs) h)

/-- A relaxation step never touches the found journeys. -/
theorem relaxOne_journeys (rid cs : String) (ar : ℚ) (nt : ℕ) (st : ScanState)
    (p : String × ℚ) :
    (relaxOne rid cs ar nt st p).journeys_found = st.journeys_found := by
  unfold relaxOne
  split <;> rfl

/-- A relaxation step with a strictly later arrival keeps every stored
in-connection strictly time-consistent. -/
theorem relaxOne_inConn (rid cs : String) (ar : ℚ) (nt : ℕ) (st : ScanState)
    (p : String × ℚ) (har : ar < p.2) (h : inConnStrict st.in_connection) :
    inConnStrict (relaxOne rid cs ar nt st p).in_connection := by
  unfold relaxOne
  split
  · intro kv hkv
    rcases mem_alSet _ _ _ _ hkv with h2 | h2
    · exact h kv h2
    · subst h2
      exact har
  · exact h

/-- Folding relaxations over next stops that all arrive strictly later
preserves the in-connection invariant and the journeys. -/
theorem relax_fold_strict (rid cs : String) (ar : ℚ) (nt : ℕ) :
    ∀ (next : List (String × ℚ)) (st : ScanState),
      (∀ p ∈ next, ar < p.2) → inConnStrict st.in_connection →
      inConnStrict ((next.foldl (relaxOne rid cs ar nt) st).in_connection) ∧
      (next.foldl (relaxOne rid cs ar nt) st).journeys_found = st.journeys_found := by
  intro next
  induction next with
  | nil => exact fun st _ h => ⟨h, rfl⟩
  | cons p ps ih =>
    intro st hnext h
    simp only [List.foldl_cons]
    obtain ⟨h1, h2⟩ := ih (relaxOne rid cs ar nt st p)
      (fun q hq => hnext q (List.mem_cons_of_mem p hq))
      (relaxOne_inConn rid cs ar nt st p (hnext p (List.mem_cons_self p ps)) h)
    exact ⟨h1, h2.trans (relaxOne_journeys rid cs ar nt st p)⟩

/-- One route exploration preserves the in-connection invariant and the
journeys. -/
theorem exploreRoute_strict (c : CSA) (cs : String) (cr : Option String)
    (n : ℕ) (acc : ℚ × ScanState) (rid : String)
    (h : inConnStrict acc.2.in_connection) :
    inConnStrict (exploreRoute c cs cr n acc rid).2.in_connection ∧
    (exploreRoute c cs cr n acc rid).2.journeys_found = acc.2.journeys_found := by
  unfold exploreRoute
  by_cases hv : (cs, rid) ∈ acc.2.visited_routes
  · simp only [if_pos hv]
    exact ⟨h, trivial⟩
  · simp only [if_neg hv]
    cases cr with
    | none =>
      exact relax_fold_strict rid cs acc.1 n _ _
        (next_stops_lt c rid cs acc.1) h
    | some r =>
      by_cases hr : r = rid
      · simp only [if_pos hr]
        exact relax_fold_strict rid cs acc.1 n _ _
          (next_stops_lt c rid cs acc.1) h
      · by_cases hvb : c.is_transfer_viable r cs rid = true
        · simp only [if_neg hr, if_pos hvb]
          exact relax_fold_strict rid cs (acc.1 + 120) (n + 1) _ _
            (next_stops_lt c rid cs (acc.1 + 120)) h
        · simp only [if_neg hr, if_neg hvb]
          exact ⟨h, trivial⟩

/-- One pop exploration preserves the in-connection invariant and the
journeys. -/
theorem exploreStop_strict (c : CSA) (st : ScanState) (t : ℚ) (cs : String)
    (cr : Option String) (n : ℕ) (h : inConnStrict st.in_connection) :
    inConnStrict (exploreStop c st t cs cr n).in_connection ∧
    (exploreStop c st t cs cr n).journeys_found = st.journeys_found := by
  unfold exploreStop
  have main := foldl_preserve
    (fun acc : ℚ × ScanState =>
      inConnStrict acc.2.in_connection ∧ acc.2.journeys_found = st.journeys_found)
    (exploreRoute c cs cr n) ?_ (c.get_routes_at_stop cs) (t, st) ⟨h, rfl⟩
  · exact main
  · intro acc rid hacc
    obtain ⟨g1, g2⟩ := exploreRoute_strict c cs cr n acc rid hacc.1
    exact ⟨g1, g2.trans hacc.2⟩

/-- Every hop collected by the backward path walk over a strictly
time-consistent predecessor map is strictly time-consistent. -/
theorem pathLoop_strict (ic : List (String × (String × String × ℚ × ℚ)))
    (o : String) (hic : inConnStrict ic) :
    ∀ (fuel : ℕ) (cur : String) (acc : List (String × String × String × ℚ × ℚ)),
      (∀ h ∈ acc, h.2.2.2.1 < h.2.2.2.2) →
      ∀ h ∈ (pathLoop ic o fuel cur acc).1, h.2.2.2.1 < h.2.2.2.2 := by
  intro fuel
  induction fuel with
  | zero => exact fun cur acc hacc => hacc
  | succ n ih =>
    intro cur acc hacc
    unfold pathLoop
    by_cases hco : cur = o
    · rw [if_pos hco]
      exact hacc
    · rw [if_neg hco]
      cases hget : alGet ic cur with
      | none => exact hacc
      | some v =>
        obtain ⟨fs, rid, dep, arr⟩ := v
        refine ih fs (acc ++ [(fs, cur, rid, dep, arr)]) ?_
        intro h hh
        rcases List.mem_append.mp hh with h2 | h2
        · exact hacc h h2
        · rw [List.mem_singleton] at h2
          subst h2
          exact hic (cur, (fs, rid, dep, arr)) (alGet_mem ic cur _ hget)

/-- The transit/transfer assembly fold of `_reconstruct_journey` keeps
all transit segments strictly time-consistent when the path hops are. -/
theorem trip_fold_strict (path : List (String × String × String × ℚ × ℚ))
    (hpath : ∀ h ∈ path, h.2.2.2.1 < h.2.2.2.2) :
    ∀ (acc : Option String × ℕ × List Segment),
      (∀ seg ∈ acc.2.2, ∀ rid fs ts dep arr dur,
        seg = Segment.transit rid fs ts dep arr dur → dep < arr) →
      ∀ seg ∈ (path.foldl
        (fun (acc : Option String × ℕ × List Segment) h =>
          let pr := acc.1
          let nt := acc.2.1
          let segs := acc.2.2
          match pr with
          | some p =>
            if p ≠ h.2.2.1 then
              (some h.2.2.1, nt + 1, segs ++
                [Segment.transfer p h.2.2.1 h.1 120,
                 Segment.transit h.2.2.1 h.1 h.2.1 h.2.2.2.1 h.2.2.2.2
                   (h.2.2.2.2 - h.2.2.2.1)])
            else
              (some h.2.2.1, nt, segs ++
                [Segment.transit h.2.2.1 h.1 h.2.1 h.2.2.2.1 h.2.2.2.2
                  (h.2.2.2.2 - h.2.2.2.1)])
          | none =>
            (some h.2.2.1, nt, segs ++
              [Segment.transit h.2.2.1 h.1 h.2.1 h.2.2.2.1 h.2.2.2.2
                (h.2.2.2.2 - h.2.2.2.1)])) acc).2.2,
        ∀ rid fs ts dep arr dur,
          seg = Segment.transit rid fs ts dep arr dur → dep < arr := by
  intro acc hacc
  refine foldl_preserve_mem
    (fun acc : Option String × ℕ × List Segment =>
      ∀ seg ∈ acc.2.2, ∀ rid fs ts dep arr dur,
        seg = Segment.transit rid fs ts dep arr dur → dep < arr)
    _ path ?_ acc hacc
  intro acc2 h hmem hP
  cases hpr : acc2.1 with
  | none =>
    simp only [hpr]
    intro seg hseg rid fs ts dep arr dur heq
    rcases List.mem_append.mp hseg with h2 | h2
    · exact hP seg h2 rid fs ts dep arr dur heq
    · rw [List.mem_singleton] at h2
      subst h2
      cases heq
      exact hpath h hmem
  | some p =>
    simp only [hpr]
    by_cases hne : p ≠ h.2.2.1
    · simp only [if_pos hne]
      intro seg hseg rid fs ts dep arr dur heq
      rcases List.mem_append.mp hseg with h2 | h2
      · exact hP seg h2 rid fs ts dep arr dur heq
      · rcases List.mem_cons.mp h2 with rfl | h3
        · exact absurd heq (by simp)
        · rw [List.mem_singleton] at h3
          subst h3
          cases heq
          exact hpath h hmem
    · simp only [if_neg hne]
      intro seg hseg rid fs ts dep arr dur heq
      rcases List.mem_append.mp hseg with h2 | h2
      · exact hP seg h2 rid fs ts dep arr dur heq
      · rw [List.mem_singleton] at h2
        subst h2
        cases heq
        exact hpath h hmem

/-- A journey reconstructed from a strictly time-consistent predecessor
map has strictly time-consistent transit segments. -/
theorem reconstruct_strict (c : CSA) (o d : String)
    (ic : List (String × (String × String × ℚ × ℚ))) (owd dwd ad : ℚ)
    (hic : inConnStrict ic) (j : Journey)
    (hj : c.reconstruct_journey o d ic owd dwd ad = some j) :
    journeyStrict j := by
  unfold CSA.reconstruct_journey at hj
  rcases hget : alGet ic d with _ | v
  · rw [hget] at hj
    exact absurd hj (by simp)
  · rw [hget] at hj
    dsimp only at hj
    by_cases hcond : (pathLoop ic o (ic.length + 1) d []).1 = [] ∨
        (pathLoop ic o (ic.length + 1) d []).2 ≠ o
    · rw [if_pos hcond] at hj
      exact absurd hj (by simp)
    · rw [if_neg hcond] at hj
      have hpath : ∀ h ∈ (pathLoop ic o (ic.length + 1) d []).1.reverse,
          h.2.2.2.1 < h.2.2.2.2 := by
        intro h hh
        exact pathLoop_strict ic o hic _ d []
          (fun x hx => absurd hx (List.not_mem_nil x)) h (List.mem_reverse.mp hh)
      cases Option.some.inj hj
      intro seg hseg rid fs ts dep arr dur heq
      rcases List.mem_append.mp hseg with h2 | h2
      · refine trip_fold_strict _ hpath _ ?_ seg h2 rid fs ts dep arr dur heq
        intro s0 hs0 rid2 fs2 ts2 dep2 arr2 dur2 heq2
        rw [List.mem_singleton] at hs0
        subst hs0
        exact absurd heq2 (by simp)
      · rw [List.mem_singleton] at h2
        subst h2
        exact absurd heq (by simp)

/-- The scan loop preserves the full strictness invariant. -/
theorem scanLoop_strict (c : CSA) (o d : String) (owd dwd ad : ℚ) :
    ∀ (fuel : ℕ) (st : ScanState), stateStrict st →
      stateStrict (scanLoop c o d owd dwd ad fuel st) := by
  intro fuel
  induction fuel with
  | zero => exact fun st h => h
  | succ n ih =>
    intro st h
    unfold scanLoop
    cases hpop : popMin st.queue with
    | none => exact h
    | some pr =>
      obtain ⟨e, rest⟩ := pr
      by_cases hd : e.stop = d
      · simp only [if_pos hd]
        cases hrj : c.reconstruct_journey o d st.in_connection owd dwd ad with
        | none => exact ih _ h
        | some j =>
          have hstrict : stateStrict
              { st with queue := rest, journeys_found := st.journeys_found ++ [j] } := by
            refine ⟨h.1, ?_⟩
            intro j2 hj2
            rcases List.mem_append.mp hj2 with h2 | h2
            · exact h.2 j2 h2
            · rw [List.mem_singleton] at h2
              subst h2
              exact reconstruct_strict c o d st.in_connection owd dwd ad h.1 j2 hrj
          by_cases hlen : (st.journeys_found ++ [j]).length ≥ 3
          · simp only [if_pos hlen]
            exact hstrict
          · simp only [if_neg hlen]
            exact ih _ hstrict
      · simp only [if_neg hd]
        by_cases hnt : e.transfers > c.max_transfers
        · simp only [if_pos hnt]
          exact ih _ h
        · simp only [if_neg hnt]
          refine ih _ ?_
          obtain ⟨g1, g2⟩ := exploreStop_strict c { st with queue := rest }
            e.arrival e.stop e.route e.transfers h.1
          refine ⟨g1, ?_⟩
          intro j2 hj2
          rw [g2] at hj2
          exact h.2 j2 hj2

/-- C9: (i) every hop generated by `_get_next_stops_on_route` arrives
strictly after the current time; (ii) along one route, stops with larger
sequence numbers receive generated arrival times that are no smaller
(non-decreasing in sequence); (iii) every transit segment of every
journey returned by `_connection_scan` has an arrival time strictly
after its departure time. -/
theorem C9_time_consistency :
    (∀ (c : CSA) (r s : String) (t : ℚ) (p : String × ℚ),
        p ∈ c.get_next_stops_on_route r s t → t < p.2) ∧
    (∀ (c : CSA) (r s : String) (t : ℚ) (dict : List (String × StopInfo))
        (info : StopInfo) (e1 e2 : String × StopInfo),
        alGet c.gtfs.route_stops r = some dict → alGet dict s = some info →
        e1 ∈ dict → e2 ∈ dict → info.sequence < e1.2.sequence →
        e1.2.sequence ≤ e2.2.sequence →
        (e1.1, t + 120 * ((e1.2.sequence - info.sequence : ℤ) : ℚ))
          ∈ c.get_next_stops_on_route r s t ∧
        (e2.1, t + 120 * ((e2.2.sequence - info.sequence : ℤ) : ℚ))
          ∈ c.get_next_stops_on_route r s t ∧
        t + 120 * ((e1.2.sequence - info.sequence : ℤ) : ℚ)
          ≤ t + 120 * ((e2.2.sequence - info.sequence : ℤ) : ℚ)) ∧
    (∀ (c : CSA) (o d : String) (start_time owd dwd ad : ℚ),
        ∀ j ∈ c.connection_scan o d start_time owd dwd ad, journeyStrict j) := by
  refine ⟨fun c r s t p hp => next_stops_lt c r s t p hp, ?_, ?_⟩
  · intro c r s t dict info e1 e2 h1 h2 he1 he2 hseq1 hle
    have hseq2 : info.sequence < e2.2.sequence := lt_of_lt_of_le hseq1 hle
    refine ⟨?_, ?_, ?_⟩
    · rw [get_next_eq_fold c r s t dict info h1 h2]
      exact next_stops_mem_of_entry info t dict [] e1 he1 hseq1
    · rw [get_next_eq_fold c r s t dict info h1 h2]
      exact next_stops_mem_of_entry info t dict [] e2 he2 hseq2
    · have hc : ((e1.2.sequence - info.sequence : ℤ) : ℚ)
          ≤ ((e2.2.sequence - info.sequence : ℤ) : ℚ) := by
        exact_mod_cast (by omega : e1.2.sequence - info.sequence
          ≤ e2.2.sequence - info.sequence)
      nlinarith
  · intro c o d start_time owd dwd ad j hj
    have hfinal := scanLoop_strict c o d owd dwd ad c.scan_fuel
      (initialState o start_time)
      ⟨fun kv hkv => absurd hkv (List.not_mem_nil kv),
       fun j2 hj2 => absurd hj2 (List.not_mem_nil j2)⟩
    exact hfinal.2 j hj

/-- Witness for C9: over `gEx2`, departing stop `A` on route `R1` at
time 0 generates the hop to `B` at 120 s (strictly later), and the
generated arrival for the sequence-2 stop `C` of route `R2` is no
earlier than itself. -/
theorem C9_time_consistency_witness :
    (0 : ℚ) < 120 ∧
    ((0 : ℚ) + 120 * ((2 - 1 : ℤ) : ℚ) ≤ (0 : ℚ) + 120 * ((2 - 1 : ℤ) : ℚ)) :=
  ⟨C9_time_consistency.1 csaEx2 "R1" "A" 0 ("B", 120)
      (by with_unfolding_all decide),
   (C9_time_consistency.2.1 csaEx2 "R2" "B" 0
      [("B", mkInfo "B" 0 0 1), ("C", mkInfo "C" 0 0 2)] (mkInfo "B" 0 0 1)
      ("C", mkInfo "C" 0 0 2) ("C", mkInfo "C" 0 0 2)
      (by with_unfolding_all rfl) (by with_unfolding_all rfl)
      (by with_unfolding_all decide) (by with_unfolding_all decide)
      (by with_unfolding_all decide) (by with_unfolding_all decide)).2.2⟩
